import Mathlib

/-!
Verification of the flit migration engine (package flit) against its
specification.  The Go source is embedded shallowly: the SQL driver, the
file system and the clock are external collaborators, so every fallible
call they serve is modelled by an explicit environment oracle, and every
statement sent over the database connection is recorded in an explicit
trace.  Pure Go functions become Lean functions, the stateful connection
becomes explicit state passing, and panics become a dedicated outcome
constructor.
-/

set_option maxRecDepth 200000

/-- Model of a Go error value.  `wrap c e` is `fmt.Errorf(c ++ ": %w", e)`,
`joined` is `errors.Join` of two non-nil errors. -/
inductive GoError where
  | base (msg : String)
  | wrap (ctx : String) (cause : GoError)
  | joined (e1 e2 : GoError)
deriving DecidableEq

/-- Model of `errors.Join(err, re)` restricted to two arguments: nil when all
arguments are nil, otherwise an error holding every non-nil argument. -/
def errorsJoin : Option GoError → Option GoError → Option GoError
  | none, none => none
  | some e, none => some e
  | none, some e => some e
  | some e1, some e2 => some (GoError.joined e1 e2)

/-- Rendering of a Go error message: `fmt.Errorf` with `%w` joins context and
cause with a colon, `errors.Join` renders one error per line. -/
def errMsg : GoError → String
  | .base m => m
  | .wrap c e => c ++ ": " ++ errMsg e
  | .joined a b => errMsg a ++ "\n" ++ errMsg b

/-- The statements the engine sends over the connection
(`guard_mysql.go`).  `createFlits` is the CREATE TABLE IF NOT EXISTS for
the flits table, `selectSums` the SELECT of the sum column,
`insertSum s` the parameterised INSERT with argument `s`, `execBody q`
the verbatim body of a migration file, and `getLock`/`releaseLock` the
MySQL GET_LOCK / RELEASE_LOCK calls with the given lock name. -/
inductive Stmt where
  | createFlits
  | selectSums
  | insertSum (sum : String)
  | execBody (sql : String)
  | getLock (name : String)
  | releaseLock (name : String)
deriving DecidableEq

/-!  SHA-256, as used by `crypto/sha256` plus `encoding/hex` in
`loadMigrations`: the digest of the UTF-8 bytes of the file name, rendered
as lowercase hexadecimal.  Implemented over `Nat` with explicit reduction
modulo 2^32. -/

/-- 32-bit addition. -/
def add32 (a b : Nat) : Nat := (a + b) % 4294967296

/-- 32-bit right rotation. -/
def rotr32 (n x : Nat) : Nat := ((x >>> n) ||| (x <<< (32 - n))) % 4294967296

/-- Logical right shift. -/
def shr32 (n x : Nat) : Nat := x >>> n

/-- SHA-256 big sigma 0. -/
def bsig0 (x : Nat) : Nat := (rotr32 2 x) ^^^ (rotr32 13 x) ^^^ (rotr32 22 x)

/-- SHA-256 big sigma 1. -/
def bsig1 (x : Nat) : Nat := (rotr32 6 x) ^^^ (rotr32 11 x) ^^^ (rotr32 25 x)

/-- SHA-256 small sigma 0. -/
def ssig0 (x : Nat) : Nat := (rotr32 7 x) ^^^ (rotr32 18 x) ^^^ (shr32 3 x)

/-- SHA-256 small sigma 1. -/
def ssig1 (x : Nat) : Nat := (rotr32 17 x) ^^^ (rotr32 19 x) ^^^ (shr32 10 x)

/-- SHA-256 choice function; complement is xor with the 32-bit mask. -/
def chf (x y z : Nat) : Nat := (x &&& y) ^^^ ((x ^^^ 4294967295) &&& z)

/-- SHA-256 majority function. -/
def majf (x y z : Nat) : Nat := (x &&& y) ^^^ (x &&& z) ^^^ (y &&& z)

/-- The `k` low-order bytes of `v`, big-endian. -/
def beBytes : Nat → Nat → List Nat
  | 0, _ => []
  | k + 1, v => beBytes k (v / 256) ++ [v % 256]

/-- Group bytes into big-endian 32-bit words. -/
def toWords : List Nat → List Nat
  | a :: b :: c :: d :: rest => (a * 16777216 + b * 65536 + c * 256 + d) :: toWords rest
  | _ => []

/-- SHA-256 padding: a 0x80 byte, zeros to 56 mod 64, then the bit length
as eight big-endian bytes. -/
def padMessage (msg : List Nat) : List Nat :=
  msg ++ 128 :: List.replicate ((55 + 64 - msg.length % 64) % 64) 0 ++ beBytes 8 (8 * msg.length)

/-- Split a byte list into 64-byte blocks; the fuel argument keeps the
recursion structural. -/
def chunksGo : Nat → List Nat → List (List Nat)
  | 0, _ => []
  | _, [] => []
  | fuel + 1, l => l.take 64 :: chunksGo fuel (l.drop 64)

/-- Extend a 16-word block to the 64-word message schedule. -/
def schedExtend : Nat → List Nat → List Nat
  | 0, w => w
  | k + 1, w =>
    schedExtend k (w ++ [add32 (add32 (ssig1 (w.getD (w.length - 2) 0)) (w.getD (w.length - 7) 0))
      (add32 (ssig0 (w.getD (w.length - 15) 0)) (w.getD (w.length - 16) 0))])

/-- The eight 32-bit words of a SHA-256 state. -/
structure Hash8 where
  a : Nat
  b : Nat
  c : Nat
  d : Nat
  e : Nat
  f : Nat
  g : Nat
  h : Nat
deriving DecidableEq

/-- The SHA-256 round constants. -/
def sha256K : List Nat :=
  [1116352408, 1899447441, 3049323471, 3921009573, 961987163,
   1508970993, 2453635748, 2870763221, 3624381080, 310598401,
   607225278, 1426881987, 1925078388, 2162078206, 2614888103,
   3248222580, 3835390401, 4022224774, 264347078, 604807628,
   770255983, 1249150122, 1555081692, 1996064986, 2554220882,
   2821834349, 2952996808, 3210313671, 3336571891, 3584528711,
   113926993, 338241895, 666307205, 773529912, 1294757372,
   1396182291, 1695183700, 1986661051, 2177026350, 2456956037,
   2730485921, 2820302411, 3259730800, 3345764771, 3516065817,
   3600352804, 4094571909, 275423344, 430227734, 506948616,
   659060556, 883997877, 958139571, 1322822218, 1537002063,
   1747873779, 1955562222, 2024104815, 2227730452, 2361852424,
   2428436474, 2756734187, 3204031479, 3329325298]

/-- The SHA-256 initial state. -/
def sha256H0 : Hash8 :=
  ⟨1779033703, 3144134277, 1013904242, 2773480762,
   1359893119, 2600822924, 528734635, 1541459225⟩

/-- The SHA-256 compression rounds over zipped constants and schedule. -/
def rounds : List (Nat × Nat) → Hash8 → Hash8
  | [], st => st
  | (k, w) :: rest, st =>
    let t1 := add32 (add32 (add32 st.h (bsig1 st.e)) (add32 (chf st.e st.f st.g) k)) w
    let t2 := add32 (bsig0 st.a) (majf st.a st.b st.c)
    rounds rest ⟨add32 t1 t2, st.a, st.b, st.c, add32 st.d t1, st.e, st.f, st.g⟩

/-- One SHA-256 block compression. -/
def compress (st : Hash8) (block : List Nat) : Hash8 :=
  let w := schedExtend 48 (toWords block)
  let r := rounds (sha256K.zip w) st
  ⟨add32 st.a r.a, add32 st.b r.b, add32 st.c r.c, add32 st.d r.d,
   add32 st.e r.e, add32 st.f r.f, add32 st.g r.g, add32 st.h r.h⟩

/-- SHA-256 digest of a byte list, as 32 bytes. -/
def sha256Bytes (msg : List Nat) : List Nat :=
  let p := padMessage msg
  let r := (chunksGo (p.length + 1) p).foldl compress sha256H0
  beBytes 4 r.a ++ beBytes 4 r.b ++ beBytes 4 r.c ++ beBytes 4 r.d ++
    beBytes 4 r.e ++ beBytes 4 r.f ++ beBytes 4 r.g ++ beBytes 4 r.h

/-- UTF-8 encoding of one character, as Go string iteration produces it. -/
def utf8Char (c : Char) : List Nat :=
  let n := c.toNat
  if n < 128 then [n]
  else if n < 2048 then [192 ||| (n >>> 6), 128 ||| (n &&& 63)]
  else if n < 65536 then [224 ||| (n >>> 12), 128 ||| ((n >>> 6) &&& 63), 128 ||| (n &&& 63)]
  else [240 ||| (n >>> 18), 128 ||| ((n >>> 12) &&& 63), 128 ||| ((n >>> 6) &&& 63), 128 ||| (n &&& 63)]

/-- UTF-8 encoding of a character list. -/
def utf8Bytes : List Char → List Nat
  | [] => []
  | c :: r => utf8Char c ++ utf8Bytes r

/-- Lowercase hexadecimal digit, as `encoding/hex` renders it. -/
def hexDigit (n : Nat) : Char := Char.ofNat (if n < 10 then 48 + n else 87 + n)

/-- Lowercase hexadecimal rendering of a byte list. -/
def hexChars : List Nat → List Char
  | [] => []
  | b :: r => hexDigit (b / 16) :: hexDigit (b % 16) :: hexChars r

/-- `hex.EncodeToString(sha256.Sum256([]byte(s))[:])`: the fingerprint the
engine derives from a migration file name (`loadMigrations`). -/
def sha256hex (s : String) : String := ⟨hexChars (sha256Bytes (utf8Bytes s.data))⟩

/-!  The engine data model (`guard_mysql.go`). -/

/-- One loaded migration (Go struct `migration`): `Sum` is the hex SHA-256
of `Name`, `SQL` the raw file content. -/
structure migration where
  Sum : String
  Name : String
  SQL : String
deriving DecidableEq

/-- Byte-lexicographic strict comparison on character lists.  Characters
compare by code point, which coincides with the ordering of their UTF-8
bytes, so this is the order `strings.Compare` induces. -/
def lexLt : List Char → List Char → Bool
  | [], [] => false
  | [], _ :: _ => true
  | _ :: _, [] => false
  | a :: as, b :: bs =>
    if a.toNat < b.toNat then true
    else if b.toNat < a.toNat then false
    else lexLt as bs

/-- Non-strict string order in the sense of `strings.Compare(a, b) <= 0`. -/
def strLe (a b : String) : Prop := lexLt b.data a.data = false

/-- The order `slices.SortFunc(pending, ...strings.Compare(a.Name, b.Name))`
sorts by. -/
def migLe (a b : migration) : Prop := strLe a.Name b.Name

/-- Strict version of `migLe`, used to exploit that loaded names are
pairwise distinct. -/
def migLt (a b : migration) : Prop := lexLt a.Name.data b.Name.data = true

/-- Decidability of the sort order. -/
def migLeDec : DecidableRel migLe := fun a b => Bool.decEq (lexLt b.Name.data a.Name.data) false

/-- The sort in `Migrate` (`slices.SortFunc` on names).  That sort is
unstable, but loaded migrations have pairwise distinct names, so any
correct comparison sort returns this list. -/
def sortPending (l : List migration) : List migration := @List.insertionSort _ migLe migLeDec l

/-- State of the database behind the held connection: the trace of every
statement sent, whether the flits table exists, and the sums recorded in
it, in insertion order. -/
structure DBState where
  stmts : List Stmt
  flitsCreated : Bool
  flits : List String
deriving DecidableEq

/-- State threaded through the guarded critical section: the connection
state plus the `applied` names accumulator that the closure in
`Migrate` captures. -/
structure MigState where
  db : DBState
  applied : List String
deriving DecidableEq

/-- Outcome of a Go computation over state `σ`: a normal return or a
propagating panic.  Deferred statements still run while panicking, so the
panic constructor carries the state too. -/
inductive Outcome (σ : Type) (α : Type) where
  | ret (s : σ) (val : α)
  | panicked (s : σ) (e : GoError)
deriving DecidableEq

/-- Send one statement over the connection (`conn.ExecContext` and
`conn.QueryContext` both reach the server; success or failure of the call
is decided by the environment oracles below). -/
def execS (s : MigState) (q : Stmt) : MigState := { s with db.stmts := s.db.stmts ++ [q] }

/-- The file system collaborator as `Migrate` consumes it: the outcome of
`fs.Glob(fsys, glob)` and of `fs.ReadFile(fsys, name)` per name. -/
structure FSModel where
  globNames : Except GoError (List String)
  readFile : String → Except GoError String

/-- Failure oracles for the statements issued inside the critical section:
whether CREATE TABLE fails, whether the SELECT query call fails (the code
panics there), whether row iteration or scanning fails, and per
migration name / sum whether executing its body or recording its sum
fails. -/
structure BodyEnv where
  createTableErr : Option GoError
  queryErr : Option GoError
  rowsErr : Option GoError
  execErr : String → Option GoError
  insertErr : String → Option GoError

/-- The whole environment of one `Migrate` call: the file system and the
outcome of `db.Conn`. -/
structure Env where
  fs : FSModel
  connErr : Option GoError
  benv : BodyEnv

/-- Go map insertion `stmts[hexsum] = m`: replace the entry with that key
if present, else append.  Keys are the `Sum` fields. -/
def mapInsert (acc : List migration) (m : migration) : List migration :=
  if acc.any (fun x => decide (x.Sum = m.Sum)) then
    acc.map (fun x => if x.Sum = m.Sum then m else x)
  else acc ++ [m]

/-- The loop body of `loadMigrations`: read each globbed name, fingerprint
it, and insert into the map. -/
def loadGo (fs : FSModel) : List String → List migration → Except GoError (List migration)
  | [], acc => .ok acc
  | n :: rest, acc =>
    match fs.readFile n with
    | .error e => .error e
    | .ok data => loadGo fs rest (mapInsert acc ⟨sha256hex n, n, data⟩)

/-- `Migrator.loadMigrations`: glob, then read and fingerprint every file.
Fails on a glob error or on any read error. -/
def loadMigrations (fs : FSModel) : Except GoError (List migration) :=
  match fs.globNames with
  | .error e => .error e
  | .ok names => loadGo fs names []

/-- `getCompletedMigrations`: query the sums of completed migrations.
Faithful to the source: a failure of the query call itself PANICS
(`panic(err)` in the Go code); a row iteration or scan failure returns the
error; success returns the recorded sums. -/
def getCompletedMigrations (benv : BodyEnv) (s : MigState) : Outcome MigState (Except GoError (List String)) :=
  let s1 := execS s .selectSums
  match benv.queryErr with
  | some e => .panicked s1 e
  | none =>
    match benv.rowsErr with
    | some e => .ret s1 (.error e)
    | none => .ret s1 (.ok s1.db.flits)

/-- Successful application of one pending migration: execute its body,
record its sum in the flits table, append its name to `applied`. -/
def applyStep (s : MigState) (m : migration) : MigState :=
  let s1 := execS (execS s (.execBody m.SQL)) (.insertSum m.Sum)
  { s1 with db.flits := s1.db.flits ++ [m.Sum], applied := s1.applied ++ [m.Name] }

/-- The apply loop of `Migrate`: for each pending migration in order,
execute the body (wrap a failure as `apply <name>: <cause>` and stop),
then record the sum (wrap a failure as `record <name>: <cause>` and
stop), then append the name to the applied accumulator. -/
def applyLoop (benv : BodyEnv) : List migration → MigState → Outcome MigState (Option GoError)
  | [], s => .ret s none
  | m :: rest, s =>
    match benv.execErr m.Name with
    | some e => .ret (execS s (.execBody m.SQL)) (some (.wrap ("apply " ++ m.Name) e))
    | none =>
      match benv.insertErr m.Sum with
      | some e =>
        .ret (execS (execS s (.execBody m.SQL)) (.insertSum m.Sum))
          (some (.wrap ("record " ++ m.Name) e))
      | none => applyLoop benv rest (applyStep s m)

/-- The closure `Migrate` passes to the guard: create the flits table,
read the completed sums, filter the loaded migrations (a Go map, iterated
in the unspecified order `reorder`), sort the pending ones by name, and
run the apply loop. -/
def migrateBody (benv : BodyEnv) (reorder : List migration → List migration)
    (migrations : List migration) (s : MigState) : Outcome MigState (Option GoError) :=
  let s1 := execS s .createFlits
  match benv.createTableErr with
  | some e => .ret s1 (some (.wrap "create flits table" e))
  | none =>
    let s2 := { s1 with db.flitsCreated := true }
    match getCompletedMigrations benv s2 with
    | .panicked s3 e => .panicked s3 e
    | .ret s3 (.error e) => .ret s3 (some e)
    | .ret s3 (.ok completed) =>
      applyLoop benv (sortPending ((reorder migrations).filter (fun m => !(completed.contains m.Sum)))) s3

/-- `GuardMySQL` from `guard_mysql.go`: execute GET_LOCK (returning its
error without any release if that call fails), defer RELEASE_LOCK, run the
critical section, and join the critical-section error with the release
error.  The deferred release also runs while a panic propagates. -/
def GuardMySQL {σ : Type} (exec : σ → Stmt → σ) (getLockErr releaseErr : Option GoError)
    (f : σ → Outcome σ (Option GoError)) (s : σ) : Outcome σ (Option GoError) :=
  let s1 := exec s (.getLock "flit")
  match getLockErr with
  | some e => .ret s1 (some e)
  | none =>
    match f s1 with
    | .ret s2 ferr => .ret (exec s2 (.releaseLock "flit")) (errorsJoin ferr releaseErr)
    | .panicked s2 e => .panicked (exec s2 (.releaseLock "flit")) e

/-- The guard configured on the migrator: the default in-process mutex
(`mutexGuard.Guard`, which in this single-call embedding just runs the
critical section) or `GuardMySQL` with its two failure oracles. -/
inductive GuardSpec where
  | mutexGuard
  | mysqlGuard (getLockErr releaseErr : Option GoError)

/-- Dispatch of the configured guard function. -/
def runGuard : GuardSpec → (MigState → Outcome MigState (Option GoError)) → MigState → Outcome MigState (Option GoError)
  | .mutexGuard, f, s => f s
  | .mysqlGuard ge re, f, s => GuardMySQL execS ge re f s

/-- `Migrator.Migrate`: load migrations (failing fast), acquire a
connection (failing fast), then run the guarded critical section and
return the applied names together with the guard result error.  A panic
inside the critical section propagates. -/
def Migrate (env : Env) (g : GuardSpec) (reorder : List migration → List migration)
    (db : DBState) : Outcome DBState (List String × Option GoError) :=
  match loadMigrations env.fs with
  | .error e => .ret db ([], some e)
  | .ok migrations =>
    match env.connErr with
    | some e => .ret db ([], some e)
    | none =>
      match runGuard g (migrateBody env.benv reorder migrations) ⟨db, []⟩ with
      | .ret s err => .ret s.db (s.applied, err)
      | .panicked s e => .panicked s.db e

/-- The connection state after the successful table creation and sum query
that precede the apply loop. -/
def setupS (s : MigState) : MigState :=
  execS { execS s .createFlits with db.flitsCreated := true } .selectSums

/-- The statement trace the apply loop produces on an all-successful run. -/
def applyTrace : List migration → List Stmt
  | [] => []
  | m :: r => .execBody m.SQL :: .insertSum m.Sum :: applyTrace r

/-- The pending list exactly as the engine materialises it: the loaded
migrations whose sum is not among the recorded ones, sorted by name. -/
def pendingFor (l : List migration) (flits : List String) : List migration :=
  sortPending (l.filter (fun m => !(flits.contains m.Sum)))

/-- No oracle reports a failure: every database call in the critical
section succeeds. -/
def noFailures (benv : BodyEnv) : Prop :=
  benv.createTableErr = none ∧ benv.queryErr = none ∧ benv.rowsErr = none ∧
    (∀ n, benv.execErr n = none) ∧ (∀ sm, benv.insertErr sm = none)

/-!  The CLI (`cmd/flit`, function `run` and `main`). -/

/-- A clock reading, already split into calendar fields. -/
structure GoTime where
  year : Nat
  month : Nat
  day : Nat
  hour : Nat
  minute : Nat
  second : Nat
deriving DecidableEq

/-- Decimal digit character. -/
def digitChar (n : Nat) : Char := Char.ofNat (48 + n % 10)

/-- Two zero-padded decimal digits. -/
def pad2 (n : Nat) : List Char := [digitChar (n / 10), digitChar n]

/-- Four zero-padded decimal digits. -/
def pad4 (n : Nat) : List Char := [digitChar (n / 1000), digitChar (n / 100), digitChar (n / 10), digitChar n]

/-- Modelled from the spec: the Go standard time package is an external
collaborator, and `time.Now().Format("20060102150405")` renders the
current time as YYYYMMDDHHMMSS. -/
def formatStamp (t : GoTime) : String :=
  ⟨pad4 t.year ++ pad2 t.month ++ pad2 t.day ++ pad2 t.hour ++ pad2 t.minute ++ pad2 t.second⟩

/-- The file name `run` builds: timestamp prefix plus `-new-migration.sql`. -/
def newFileName (t : GoTime) : String := formatStamp t ++ "-new-migration.sql"

/-- `filepath.Join` restricted to the shapes `run` produces (a cleaned
directory argument and a relative file name). -/
def joinPath (dir name : String) : String := if dir = "" then name else dir ++ "/" ++ name

/-- The usage line `run` prints on argument misuse. -/
def usageLine : String := "usage: flit new MIGRATION-DIR"

/-- The world the CLI interacts with: the argument vector (including the
program name), the stat result per path (whether it is a directory), the
clock, and the write result per path. -/
structure CLIEnv where
  args : List String
  stat : String → Except GoError Bool
  now : GoTime
  writeErr : String → Option GoError

/-- Observable outcome of one CLI run: exit code, standard error lines,
standard output lines, and the files written with their content. -/
structure CLIOut where
  exitCode : Nat
  stderrLines : List String
  stdoutLines : List String
  writes : List (String × String)
deriving DecidableEq

/-- `main` plus `run` of the CLI: argument misuse prints the usage line and
exits 2; a stat failure or a non-directory argument or a write failure
prints `flit: <error>` and exits 1; otherwise an empty timestamped file is
written and its path printed. -/
def cliMain (env : CLIEnv) : CLIOut :=
  if env.args.length ≠ 3 ∨ env.args.getD 1 "" ≠ "new" then ⟨2, [usageLine], [], []⟩
  else
    let dir := env.args.getD 2 ""
    match env.stat dir with
    | .error e => ⟨1, ["flit: " ++ errMsg e], [], []⟩
    | .ok isDir =>
      if isDir then
        let path := joinPath dir (newFileName env.now)
        match env.writeErr path with
        | some e => ⟨1, ["flit: " ++ errMsg e], [], []⟩
        | none => ⟨0, [], [path], [(path, "")]⟩
      else ⟨1, ["flit: stat " ++ dir ++ ": not a directory"], [], []⟩

/-!  Concrete instances used by the claim theorems and witnesses. -/

/-- An empty database: no statements sent, no flits table, no records. -/
def dbEmpty : DBState := ⟨[], false, []⟩

/-- An environment in which every database call succeeds. -/
def benvOK : BodyEnv := ⟨none, none, none, fun _ => none, fun _ => none⟩

/-- A file system with no migration files. -/
def fsC1 : FSModel := ⟨.ok [], fun _ => .error (.base "unused")⟩

/-- Environment whose completed-sums query fails. -/
def envC1 : Env := ⟨fsC1, none, ⟨none, some (.base "query failed"), none, fun _ => none, fun _ => none⟩⟩

/-- Five migration files in discovery order. -/
def fsC2 : FSModel :=
  ⟨.ok ["001-a.sql", "002-b.sql", "003-c.sql", "004-d.sql", "005-e.sql"],
   fun n => .ok ("body " ++ n)⟩

/-- Every call succeeds except executing the body of the third unit. -/
def benvC2 : BodyEnv :=
  ⟨none, none, none,
   fun n => if n = "003-c.sql" then some (.base "syntax error") else none,
   fun _ => none⟩

/-- Environment for the fail-stop witness. -/
def envC2 : Env := ⟨fsC2, none, benvC2⟩

/-- The migration loaded for file `n` in `fsC2`. -/
def mC2 (n : String) : migration := ⟨sha256hex n, n, "body " ++ n⟩

/-- The load result for `fsC2`. -/
def lC2 : List migration :=
  [mC2 "001-a.sql", mC2 "002-b.sql", mC2 "003-c.sql", mC2 "004-d.sql", mC2 "005-e.sql"]

/-- The two units applied before the failure. -/
def goodC2 : List migration := [mC2 "001-a.sql", mC2 "002-b.sql"]

/-- The failing third unit. -/
def badC2 : migration := mC2 "003-c.sql"

/-- The two units never reached. -/
def restC2 : List migration := [mC2 "004-d.sql", mC2 "005-e.sql"]

/-- Two files whose lexicographic order differs from their numeric order,
in discovery order. -/
def fsC3 : FSModel :=
  ⟨.ok ["002-first.sql", "01-second.sql"], fun n => .ok ("body " ++ n)⟩

/-- Environment for the ordering witness. -/
def envC3 : Env := ⟨fsC3, none, benvOK⟩

/-- The load result for `fsC3`. -/
def lC3 : List migration :=
  [⟨sha256hex "002-first.sql", "002-first.sql", "body 002-first.sql"⟩,
   ⟨sha256hex "01-second.sql", "01-second.sql", "body 01-second.sql"⟩]

/-- Two migration files. -/
def fsC4 : FSModel :=
  ⟨.ok ["001-first.sql", "002-second.sql"], fun n => .ok ("body " ++ n)⟩

/-- Environment for the idempotence witness. -/
def envC4 : Env := ⟨fsC4, none, benvOK⟩

/-- The load result for `fsC4`. -/
def lC4 : List migration :=
  [⟨sha256hex "001-first.sql", "001-first.sql", "body 001-first.sql"⟩,
   ⟨sha256hex "002-second.sql", "002-second.sql", "body 002-second.sql"⟩]

/-- One migration file with one body. -/
def fsC5 : FSModel := ⟨.ok ["abc"], fun _ => .ok "BODY ONE"⟩

/-- The same file name with an edited body. -/
def fsC5b : FSModel := ⟨.ok ["abc"], fun _ => .ok "BODY TWO"⟩

/-- The load result for `fsC5`. -/
def lC5 : List migration := [⟨sha256hex "abc", "abc", "BODY ONE"⟩]

/-- The load result for `fsC5b`. -/
def lC5b : List migration := [⟨sha256hex "abc", "abc", "BODY TWO"⟩]

/-- A file system whose glob fails. -/
def fsC8 : FSModel := ⟨.error (.base "bad pattern"), fun _ => .ok ""⟩

/-- Environment for the abort-before-guard witness. -/
def envC8 : Env := ⟨fsC8, none, benvOK⟩

/-- A CLI invocation with wrong arguments. -/
def cliEnvA : CLIEnv := ⟨["flit"], fun _ => .ok false, ⟨2026, 10, 11, 12, 0, 0⟩, fun _ => none⟩

/-- A correct CLI invocation on an existing directory. -/
def cliEnvB : CLIEnv :=
  ⟨["flit", "new", "migrations"], fun _ => .ok true, ⟨2026, 10, 11, 12, 0, 0⟩, fun _ => none⟩

/-- Two migration files whose discovery order is not name order. -/
def fsC10 : FSModel := ⟨.ok ["b.sql", "a.sql"], fun n => .ok ("body " ++ n)⟩

/-- Environment for the determinism witness. -/
def envC10 : Env := ⟨fsC10, none, benvOK⟩

/-!  Helper lemmas. -/

/-- SHA-256 test vector: digest of the three-byte message abc. -/
theorem sha256hex_abc :
    sha256hex "abc" = "ba7816bf8f01cfea414140de5dae2223b00361a396177a9cb410ff61f20015ad" := by
  decide

/-- SHA-256 test vector: digest of the empty message. -/
theorem sha256hex_empty :
    sha256hex "" = "e3b0c44298fc1c149afbf4c8996fb92427ae41e4649b934ca495991b7852b855" := by
  decide

/-- Characters with equal code points are equal. -/
theorem char_toNat_inj {a b : Char} (h : a.toNat = b.toNat) : a = b := by
  have hv : a.val = b.val := by
    have hn : a.val.toNat = b.val.toNat := h
    exact UInt32.eq_of_val_eq (Fin.ext hn)
  cases a; cases b; cases hv; rfl

/-- Strings with equal character lists are equal. -/
theorem str_data_inj {a b : String} (h : a.data = b.data) : a = b := by
  cases a; cases b; exact congrArg String.mk h

/-- The strict byte order is irreflexive. -/
theorem lexLt_irrefl : ∀ x, lexLt x x = false
  | [] => rfl
  | a :: as => by simp [lexLt, lexLt_irrefl as]

/-- Two lists neither of which is below the other are equal. -/
theorem lexLt_conn : ∀ x y, lexLt x y = false → lexLt y x = false → x = y
  | [], [], _, _ => rfl
  | [], _ :: _, h1, _ => by simp [lexLt] at h1
  | _ :: _, [], _, h2 => by simp [lexLt] at h2
  | a :: as, b :: bs, h1, h2 => by
    rcases Nat.lt_trichotomy a.toNat b.toNat with h | h | h
    · simp [lexLt, h] at h1
    · have hab : a = b := char_toNat_inj h
      have h1t : lexLt as bs = false := by simpa [lexLt, h] using h1
      have h2t : lexLt bs as = false := by simpa [lexLt, h] using h2
      rw [hab, lexLt_conn as bs h1t h2t]
    · simp [lexLt, h] at h2

/-- The strict byte order is transitive. -/
theorem lexLt_trans : ∀ x y z, lexLt x y = true → lexLt y z = true → lexLt x z = true
  | [], [], _, h1, _ => by simp [lexLt] at h1
  | [], _ :: _, [], _, h2 => by simp [lexLt] at h2
  | [], _ :: _, _ :: _, _, _ => rfl
  | _ :: _, [], _, h1, _ => by simp [lexLt] at h1
  | _ :: _, _ :: _, [], _, h2 => by simp [lexLt] at h2
  | a :: as, b :: bs, c :: cs, h1, h2 => by
    rcases Nat.lt_trichotomy a.toNat b.toNat with hab | hab | hab
    · rcases Nat.lt_trichotomy b.toNat c.toNat with hbc | hbc | hbc
      · simp [lexLt, Nat.lt_trans hab hbc]
      · simp [lexLt, hbc ▸ hab]
      · simp [lexLt, hbc, Nat.lt_asymm hbc] at h2
    · have h1t : lexLt as bs = true := by simpa [lexLt, hab] using h1
      rcases Nat.lt_trichotomy b.toNat c.toNat with hbc | hbc | hbc
      · simp [lexLt, hab ▸ hbc]
      · have h2t : lexLt bs cs = true := by simpa [lexLt, hbc] using h2
        simp [lexLt, hab.trans hbc, lexLt_trans as bs cs h1t h2t]
      · simp [lexLt, hbc, Nat.lt_asymm hbc] at h2
    · simp [lexLt, hab, Nat.lt_asymm hab] at h1

/-- The strict byte order is asymmetric. -/
theorem lexLt_asymm (x y : List Char) (h : lexLt x y = true) : lexLt y x = false := by
  cases hyx : lexLt y x with
  | false => rfl
  | true =>
    have := lexLt_trans x y x h hyx
    rw [lexLt_irrefl] at this
    exact absurd this (by simp)

/-- Totality of the sort order of `Migrate`. -/
theorem migLe_total : ∀ a b : migration, migLe a b ∨ migLe b a := by
  intro a b
  cases h : lexLt a.Name.data b.Name.data with
  | true => exact Or.inl (lexLt_asymm _ _ h)
  | false => exact Or.inr h

/-- Transitivity of the sort order of `Migrate`. -/
theorem migLe_trans : ∀ a b c : migration, migLe a b → migLe b c → migLe a c := by
  intro a b c h1 h2
  unfold migLe strLe at *
  cases hca : lexLt c.Name.data a.Name.data with
  | false => rfl
  | true =>
    cases hab : lexLt a.Name.data b.Name.data with
    | true =>
      have := lexLt_trans _ _ _ hca hab
      rw [h2] at this
      exact this.symm
    | false =>
      have hdata : a.Name.data = b.Name.data := lexLt_conn _ _ hab h1
      rw [hdata] at hca
      rw [h2] at hca
      exact hca.symm

/-- Antisymmetry of the strict order (vacuously, via asymmetry). -/
theorem migLt_antisymm : ∀ a b : migration, migLt a b → migLt b a → a = b := by
  intro a b h1 h2
  have := lexLt_asymm _ _ h1
  rw [migLt, this] at h2
  exact absurd h2 (by simp)

/-- A non-strict comparison between migrations with distinct names is
strict. -/
theorem migLt_of_le_ne (a b : migration) (h1 : migLe a b) (h2 : a.Name ≠ b.Name) : migLt a b := by
  cases hab : lexLt a.Name.data b.Name.data with
  | true => exact hab
  | false =>
    have hdata : a.Name.data = b.Name.data := lexLt_conn _ _ hab h1
    exact absurd (str_data_inj hdata) h2

/-- The sort of `Migrate` permutes the pending list. -/
theorem sortPending_perm (l : List migration) : List.Perm (sortPending l) l :=
  @List.perm_insertionSort _ migLe migLeDec l

/-- The sort of `Migrate` sorts by name. -/
theorem sortPending_sorted (l : List migration) : List.Pairwise migLe (sortPending l) :=
  @List.sorted_insertionSort _ migLe migLeDec ⟨migLe_total⟩ ⟨migLe_trans⟩ l

/-- On a list of migrations with pairwise distinct names, sortedness is
strict. -/
theorem pairwise_migLt {l : List migration} (h : List.Pairwise migLe l)
    (hn : (l.map migration.Name).Nodup) : List.Pairwise migLt l := by
  have hne : List.Pairwise (fun a b : migration => a.Name ≠ b.Name) l := List.pairwise_map.mp hn
  exact (h.and hne).imp (fun hab => migLt_of_le_ne _ _ hab.1 hab.2)

/-- Two sorted permutations of a list with pairwise distinct names are
equal: the output of the unstable `slices.SortFunc` is uniquely
determined. -/
theorem sorted_unique {l₁ l₂ : List migration} (hp : List.Perm l₁ l₂)
    (h₁ : List.Pairwise migLe l₁) (h₂ : List.Pairwise migLe l₂)
    (hn : (l₁.map migration.Name).Nodup) : l₁ = l₂ := by
  have hn₂ : (l₂.map migration.Name).Nodup := (hp.map migration.Name).nodup hn
  exact @List.eq_of_perm_of_sorted _ migLt ⟨migLt_antisymm⟩ _ _ hp
    (pairwise_migLt h₁ hn) (pairwise_migLt h₂ hn₂)

/-- Filtering preserves distinctness of names. -/
theorem nodup_names_filter {l : List migration} (p : migration → Bool)
    (hn : (l.map migration.Name).Nodup) : ((l.filter p).map migration.Name).Nodup :=
  List.Nodup.sublist ((List.filter_sublist l).map migration.Name) hn

/-- Sorting the filtered migrations does not depend on the iteration order
of the map they were stored in, as long as names are pairwise distinct. -/
theorem sortPending_canonical {l order : List migration} (p : migration → Bool)
    (hper : List.Perm order l) (hn : (l.map migration.Name).Nodup) :
    sortPending (order.filter p) = sortPending (l.filter p) := by
  have hof : (order.map migration.Name).Nodup := (hper.symm.map migration.Name).nodup hn
  have h1 : ((order.filter p).map migration.Name).Nodup := nodup_names_filter p hof
  apply sorted_unique
  · exact (sortPending_perm _).trans ((hper.filter p).trans (sortPending_perm _).symm)
  · exact sortPending_sorted _
  · exact sortPending_sorted _
  · exact ((sortPending_perm (order.filter p)).symm.map migration.Name).nodup h1

/-- Map insertion preserves the load invariant: every entry fingerprints
its own name, and keys are pairwise distinct. -/
theorem mapInsert_inv (acc : List migration) (m : migration)
    (h1 : ∀ x ∈ acc, x.Sum = sha256hex x.Name) (h2 : (acc.map migration.Sum).Nodup)
    (hm : m.Sum = sha256hex m.Name) :
    (∀ x ∈ mapInsert acc m, x.Sum = sha256hex x.Name) ∧
      ((mapInsert acc m).map migration.Sum).Nodup := by
  unfold mapInsert
  by_cases hany : acc.any (fun x => decide (x.Sum = m.Sum)) = true
  · rw [if_pos hany]
    constructor
    · intro x hx
      rcases List.mem_map.mp hx with ⟨y, hy, hxy⟩
      by_cases hys : y.Sum = m.Sum
      · rw [← hxy, if_pos hys]; exact hm
      · rw [← hxy, if_neg hys]; exact h1 y hy
    · have hmaps : (acc.map (fun x => if x.Sum = m.Sum then m else x)).map migration.Sum
          = acc.map migration.Sum := by
        rw [List.map_map]
        apply List.map_congr_left
        intro x _
        by_cases hxs : x.Sum = m.Sum
        · simp [Function.comp, hxs]
        · simp [Function.comp, hxs]
      rw [hmaps]
      exact h2
  · rw [if_neg hany]
    constructor
    · intro x hx
      rcases List.mem_append.mp hx with hx | hx
      · exact h1 x hx
      · rw [List.mem_singleton.mp hx]; exact hm
    · rw [List.map_append]
      have hnotin : m.Sum ∉ acc.map migration.Sum := by
        intro hmem
        rcases List.mem_map.mp hmem with ⟨y, hy, hys⟩
        have := List.any_eq_false.mp (Bool.eq_false_iff.mpr hany) y hy
        simp [hys] at this
      simp [List.nodup_append, h2, List.disjoint_singleton, hnotin]

/-- The load loop preserves the invariant. -/
theorem loadGo_inv (fs : FSModel) :
    ∀ names acc l, (∀ x ∈ acc, x.Sum = sha256hex x.Name) → (acc.map migration.Sum).Nodup →
      loadGo fs names acc = .ok l →
      (∀ x ∈ l, x.Sum = sha256hex x.Name) ∧ (l.map migration.Sum).Nodup
  | [], acc, l, h1, h2, heq => by
    simp only [loadGo, Except.ok.injEq] at heq
    rw [← heq]
    exact ⟨h1, h2⟩
  | n :: rest, acc, l, h1, h2, heq => by
    cases hr : fs.readFile n with
    | error e => rw [loadGo, hr] at heq; exact absurd heq (by simp)
    | ok data =>
      rw [loadGo, hr] at heq
      have hstep := mapInsert_inv acc ⟨sha256hex n, n, data⟩ h1 h2 rfl
      exact loadGo_inv fs rest (mapInsert acc ⟨sha256hex n, n, data⟩) l hstep.1 hstep.2 heq

/-- Every loaded migration fingerprints its own name, and the map keys are
pairwise distinct. -/
theorem loadMigrations_sums {fs : FSModel} {l : List migration}
    (h : loadMigrations fs = .ok l) :
    (∀ x ∈ l, x.Sum = sha256hex x.Name) ∧ (l.map migration.Sum).Nodup := by
  unfold loadMigrations at h
  cases hg : fs.globNames with
  | error e => rw [hg] at h; exact absurd h (by simp)
  | ok names =>
    rw [hg] at h
    exact loadGo_inv fs names [] l (by simp) (by simp) h

/-- Names of loaded migrations are pairwise distinct. -/
theorem loadMigrations_names_nodup {fs : FSModel} {l : List migration}
    (h : loadMigrations fs = .ok l) : (l.map migration.Name).Nodup := by
  obtain ⟨h1, h2⟩ := loadMigrations_sums h
  have hmap : l.map migration.Sum = (l.map migration.Name).map sha256hex := by
    rw [List.map_map]
    exact List.map_congr_left (fun m hm => h1 m hm)
  rw [hmap] at h2
  exact List.Nodup.of_map sha256hex h2

/-- Effect of an all-successful apply run on the state: names appended in
order, sums recorded in order, bodies and inserts traced in order, table
existence untouched. -/
theorem foldl_applyStep (p : List migration) (s : MigState) :
    (List.foldl applyStep s p).applied = s.applied ++ p.map migration.Name ∧
    (List.foldl applyStep s p).db.flits = s.db.flits ++ p.map migration.Sum ∧
    (List.foldl applyStep s p).db.stmts = s.db.stmts ++ applyTrace p ∧
    (List.foldl applyStep s p).db.flitsCreated = s.db.flitsCreated := by
  induction p generalizing s with
  | nil => simp [applyTrace]
  | cons m rest ih =>
    obtain ⟨i1, i2, i3, i4⟩ := ih (applyStep s m)
    refine ⟨?_, ?_, ?_, ?_⟩ <;>
      simp only [List.foldl_cons, List.map_cons, applyTrace, i1, i2, i3, i4] <;>
      simp [applyStep, execS]

/-- When every pending unit succeeds, the apply loop returns the folded
state and no error. -/
theorem applyLoop_ok (benv : BodyEnv) :
    ∀ p s, (∀ m ∈ p, benv.execErr m.Name = none ∧ benv.insertErr m.Sum = none) →
      applyLoop benv p s = .ret (List.foldl applyStep s p) none
  | [], s, _ => rfl
  | m :: rest, s, h => by
    have hm := h m (List.mem_cons_self _ _)
    rw [applyLoop, hm.1, hm.2]
    exact applyLoop_ok benv rest (applyStep s m) (fun x hx => h x (List.mem_cons_of_mem _ hx))

/-- When the first failing unit is `bad`, the apply loop applies exactly
the good prefix, then stops at `bad` with a wrapped apply or record error,
leaving the rest untouched. -/
theorem applyLoop_fail (benv : BodyEnv) (bad : migration)
    (hbad : ¬(benv.execErr bad.Name = none ∧ benv.insertErr bad.Sum = none)) :
    ∀ good rest s, (∀ m ∈ good, benv.execErr m.Name = none ∧ benv.insertErr m.Sum = none) →
      (∃ e, benv.execErr bad.Name = some e ∧
        applyLoop benv (good ++ bad :: rest) s =
          .ret (execS (List.foldl applyStep s good) (.execBody bad.SQL))
            (some (.wrap ("apply " ++ bad.Name) e)))
      ∨ (benv.execErr bad.Name = none ∧ ∃ e, benv.insertErr bad.Sum = some e ∧
        applyLoop benv (good ++ bad :: rest) s =
          .ret (execS (execS (List.foldl applyStep s good) (.execBody bad.SQL)) (.insertSum bad.Sum))
            (some (.wrap ("record " ++ bad.Name) e)))
  | [], rest, s, _ => by
    cases he : benv.execErr bad.Name with
    | some e =>
      left
      exact ⟨e, rfl, by rw [List.nil_append, applyLoop, he]; rfl⟩
    | none =>
      right
      cases hi : benv.insertErr bad.Sum with
      | some e =>
        exact ⟨rfl, e, rfl, by rw [List.nil_append, applyLoop, he, hi]; rfl⟩
      | none => exact absurd ⟨he, hi⟩ hbad
  | m :: good, rest, s, h => by
    have hm := h m (List.mem_cons_self _ _)
    have ihs := applyLoop_fail benv bad hbad good rest (applyStep s m)
      (fun x hx => h x (List.mem_cons_of_mem _ hx))
    rw [List.cons_append, applyLoop, hm.1, hm.2]
    simpa using ihs

/-- Unfolding of the critical section when table creation and the
completed-sums query succeed: filter against the recorded sums, sort, and
run the apply loop from the post-setup state. -/
theorem migrateBody_run (benv : BodyEnv) (h1 : benv.createTableErr = none)
    (h2 : benv.queryErr = none) (h3 : benv.rowsErr = none)
    (reorder : List migration → List migration) (migs : List migration) (s : MigState) :
    migrateBody benv reorder migs s =
      applyLoop benv
        (sortPending ((reorder migs).filter (fun m => !(s.db.flits.contains m.Sum))))
        (setupS s) := by
  simp [migrateBody, getCompletedMigrations, h1, h2, h3, setupS, execS]

/-- `beBytes` produces exactly `k` bytes. -/
theorem beBytes_length : ∀ k v, (beBytes k v).length = k
  | 0, _ => rfl
  | k + 1, v => by simp [beBytes, beBytes_length k]

/-- Every entry of `beBytes` is a byte. -/
theorem mem_beBytes_lt : ∀ k v x, x ∈ beBytes k v → x < 256
  | 0, _, _, hx => absurd hx (List.not_mem_nil _)
  | k + 1, v, x, hx => by
    rcases List.mem_append.mp hx with h | h
    · exact mem_beBytes_lt k _ x h
    · rw [List.mem_singleton.mp h]; exact Nat.mod_lt _ (by decide)

/-- A SHA-256 digest has 32 bytes. -/
theorem sha256Bytes_length (msg : List Nat) : (sha256Bytes msg).length = 32 := by
  simp [sha256Bytes, beBytes_length]

/-- Every entry of a SHA-256 digest is a byte. -/
theorem mem_sha256Bytes_lt (msg : List Nat) (x : Nat) (hx : x ∈ sha256Bytes msg) : x < 256 := by
  simp only [sha256Bytes, List.mem_append] at hx
  rcases hx with ((((((h | h) | h) | h) | h) | h) | h) | h <;> exact mem_beBytes_lt 4 _ x h

/-- Hex rendering doubles the length. -/
theorem hexChars_length : ∀ bs : List Nat, (hexChars bs).length = 2 * bs.length
  | [] => rfl
  | b :: r => by simp [hexChars, hexChars_length r]; omega

/-- Every character of a hex rendering comes from a nibble of a byte. -/
theorem mem_hexChars : ∀ (bs : List Nat) (c : Char), c ∈ hexChars bs →
    ∃ b ∈ bs, c = hexDigit (b / 16) ∨ c = hexDigit (b % 16)
  | [], _, hx => absurd hx (List.not_mem_nil _)
  | b :: r, c, hx => by
    rcases hx with _ | ⟨_, hx⟩
    · exact ⟨b, List.mem_cons_self _ _, Or.inl rfl⟩
    · rcases hx with _ | ⟨_, hx⟩
      · exact ⟨b, List.mem_cons_self _ _, Or.inr rfl⟩
      · rcases mem_hexChars r c hx with ⟨b2, hb2, hc⟩
        exact ⟨b2, List.mem_cons_of_mem _ hb2, hc⟩

/-- Every nibble renders to a lowercase hexadecimal digit character. -/
theorem hexDigit_mem_digits : ∀ d < 16, hexDigit d ∈ ("0123456789abcdef").data := by decide

/-- Map insertion only looks at names and sums: two accumulators that
agree on the name/sum projection still agree after inserting entries for
the same file name with possibly different contents. -/
theorem proj_mapInsert (acc acc2 : List migration) (n d d2 : String)
    (h : acc.map (fun m => (m.Name, m.Sum)) = acc2.map (fun m => (m.Name, m.Sum))) :
    (mapInsert acc ⟨sha256hex n, n, d⟩).map (fun m => (m.Name, m.Sum))
      = (mapInsert acc2 ⟨sha256hex n, n, d2⟩).map (fun m => (m.Name, m.Sum)) := by
  have eany : ∀ (l : List migration),
      l.any (fun x => decide (x.Sum = sha256hex n))
        = (l.map (fun m => (m.Name, m.Sum))).any (fun q => decide (q.2 = sha256hex n)) := by
    intro l
    induction l with
    | nil => rfl
    | cons x r ih => simp [List.any_cons, ih]
  have hany : acc.any (fun x => decide (x.Sum = sha256hex n))
      = acc2.any (fun x => decide (x.Sum = sha256hex n)) := by
    rw [eany, eany, h]
  have erepl : ∀ (l : List migration) (dd : String),
      (l.map (fun x => if x.Sum = (⟨sha256hex n, n, dd⟩ : migration).Sum
          then (⟨sha256hex n, n, dd⟩ : migration) else x)).map (fun m => (m.Name, m.Sum))
        = (l.map (fun m => (m.Name, m.Sum))).map
            (fun q => if q.2 = sha256hex n then (n, sha256hex n) else q) := by
    intro l dd
    rw [List.map_map, List.map_map]
    apply List.map_congr_left
    intro x _
    by_cases hs : x.Sum = sha256hex n <;> simp [Function.comp, hs]
  unfold mapInsert
  by_cases hc : acc.any (fun x => decide (x.Sum = sha256hex n)) = true
  · rw [if_pos hc, if_pos (by rw [← hany]; exact hc), erepl, erepl, h]
  · rw [if_neg hc, if_neg (by rw [← hany]; exact hc), List.map_append, List.map_append, h]
    simp

/-- The load loop only looks at the globbed names when building the
name/sum projection: file contents do not influence it. -/
theorem loadGo_proj (fs fs2 : FSModel) :
    ∀ (names : List String) (acc acc2 l l2 : List migration),
      acc.map (fun m => (m.Name, m.Sum)) = acc2.map (fun m => (m.Name, m.Sum)) →
      loadGo fs names acc = .ok l → loadGo fs2 names acc2 = .ok l2 →
      l.map (fun m => (m.Name, m.Sum)) = l2.map (fun m => (m.Name, m.Sum))
  | [], acc, acc2, l, l2, h, heq, heq2 => by
    simp only [loadGo, Except.ok.injEq] at heq heq2
    rw [← heq, ← heq2]
    exact h
  | n :: rest, acc, acc2, l, l2, h, heq, heq2 => by
    cases hr : fs.readFile n with
    | error e => rw [loadGo, hr] at heq; exact absurd heq (by simp)
    | ok data =>
      cases hr2 : fs2.readFile n with
      | error e => rw [loadGo, hr2] at heq2; exact absurd heq2 (by simp)
      | ok data2 =>
        rw [loadGo, hr] at heq
        rw [loadGo, hr2] at heq2
        exact loadGo_proj fs fs2 rest _ _ l l2 (proj_mapInsert acc acc2 n data data2 h) heq heq2

/-- `slices.Contains` agrees with membership. -/
theorem contains_iff (l : List String) (s : String) : l.contains s = true ↔ s ∈ l := by
  simp [List.contains, List.elem_iff]

/-- A fully successful `Migrate` run with the default guard: it returns
exactly the pending names in sorted order and folds the apply step over
the sorted pending list, independently of the map iteration order. -/
theorem migrate_healthy_run (env : Env) (db : DBState)
    (reorder : List migration → List migration) (l : List migration)
    (hl : loadMigrations env.fs = .ok l) (hc : env.connErr = none)
    (hok : noFailures env.benv) (hre : List.Perm (reorder l) l) :
    Migrate env .mutexGuard reorder db =
      .ret (List.foldl applyStep (setupS ⟨db, []⟩) (pendingFor l db.flits)).db
        ((pendingFor l db.flits).map migration.Name, none) := by
  obtain ⟨hct, hq, hrw, hexec, hins⟩ := hok
  have hn := loadMigrations_names_nodup hl
  have hcanon :
      sortPending ((reorder l).filter (fun m => !(db.flits.contains m.Sum)))
        = pendingFor l db.flits :=
    sortPending_canonical _ hre hn
  have hbody :
      migrateBody env.benv reorder l ⟨db, []⟩ =
        .ret (List.foldl applyStep (setupS ⟨db, []⟩) (pendingFor l db.flits)) none := by
    rw [migrateBody_run env.benv hct hq hrw reorder l ⟨db, []⟩]
    have : (⟨db, []⟩ : MigState).db.flits = db.flits := rfl
    rw [this, hcanon]
    exact applyLoop_ok env.benv _ _ (fun m _ => ⟨hexec m.Name, hins m.Sum⟩)
  have happ := (foldl_applyStep (pendingFor l db.flits) (setupS ⟨db, []⟩)).1
  simp only [Migrate, hl, hc, runGuard, hbody]
  rw [happ]
  simp [setupS, execS]

/-!  Claim theorems. -/

/-- Claim C8: if discovery (glob or read) fails, or connection acquisition
fails, `Migrate` returns that error with an empty applied sequence and the
database state untouched — no statement is sent, no lock is taken, no
table is created — for every configured guard, which is therefore never
invoked. -/
theorem migrate_aborts_before_guard :
    (∀ (fs : FSModel) (ce : Option GoError) (benv : BodyEnv) (db : DBState)
        (g : GuardSpec) (reorder : List migration → List migration) (e : GoError),
      loadMigrations fs = .error e →
      Migrate ⟨fs, ce, benv⟩ g reorder db = .ret db ([], some e))
    ∧ (∀ (fs : FSModel) (benv : BodyEnv) (db : DBState) (g : GuardSpec)
        (reorder : List migration → List migration) (l : List migration) (e : GoError),
      loadMigrations fs = .ok l →
      Migrate ⟨fs, some e, benv⟩ g reorder db = .ret db ([], some e)) := by
  constructor
  · intro fs ce benv db g reorder e hl
    simp [Migrate, hl]
  · intro fs benv db g reorder l e hl
    simp [Migrate, hl]

/-- Witness for claim C8 at a concrete failing glob and an arbitrary
MySQL guard. -/
theorem migrate_aborts_before_guard_witness :
    loadMigrations fsC8 = .error (.base "bad pattern")
    ∧ Migrate envC8 (.mysqlGuard none none) id dbEmpty
        = .ret dbEmpty ([], some (.base "bad pattern")) :=
  ⟨rfl,
   migrate_aborts_before_guard.1 fsC8 none benvOK dbEmpty (.mysqlGuard none none) id
     (.base "bad pattern") rfl⟩

/-- Claim C10: the result of `Migrate` — applied names, returned error and
final database state alike — does not depend on the iteration order of the
migration map: any two iteration orders give identical results, because
the pending list is sorted by name and loaded names are pairwise
distinct. -/
theorem migrate_deterministic (env : Env) (g : GuardSpec) (db : DBState)
    (r1 r2 : List migration → List migration)
    (h1 : ∀ l, List.Perm (r1 l) l) (h2 : ∀ l, List.Perm (r2 l) l) :
    Migrate env g r1 db = Migrate env g r2 db := by
  cases hl : loadMigrations env.fs with
  | error e => simp [Migrate, hl]
  | ok l =>
    cases hc : env.connErr with
    | some e => simp [Migrate, hl, hc]
    | none =>
      have hn := loadMigrations_names_nodup hl
      have hbody : migrateBody env.benv r1 l = migrateBody env.benv r2 l := by
        funext s
        unfold migrateBody getCompletedMigrations
        cases hct : env.benv.createTableErr with
        | some e => rfl
        | none =>
          cases hq : env.benv.queryErr with
          | some e => rfl
          | none =>
            cases hrw : env.benv.rowsErr with
            | some e => rfl
            | none =>
              have e1 := sortPending_canonical
                (fun m => !((execS { execS s .createFlits with db.flitsCreated := true }
                  .selectSums).db.flits.contains m.Sum)) (h1 l) hn
              have e2 := sortPending_canonical
                (fun m => !((execS { execS s .createFlits with db.flitsCreated := true }
                  .selectSums).db.flits.contains m.Sum)) (h2 l) hn
              simp only [e1, e2]
      simp only [Migrate, hl, hc, hbody]

/-- Witness for claim C10: identity iteration order and reversed iteration
order give the same result on a two-file environment. -/
theorem migrate_deterministic_witness :
    Migrate envC10 .mutexGuard id dbEmpty = Migrate envC10 .mutexGuard List.reverse dbEmpty :=
  migrate_deterministic envC10 .mutexGuard dbEmpty id List.reverse
    (fun l => List.Perm.refl l) (fun l => List.reverse_perm l)

/-- Claim C6: `GuardMySQL` sends GET_LOCK for the lock named flit before
the critical section runs; whenever acquisition succeeded it sends
RELEASE_LOCK afterwards, both when the critical section returns (also with
an error) and while a panic propagates, and its result joins the
critical-section error with the release error so that neither masks the
other; when acquisition fails its error is returned and no release is
sent. -/
theorem guardMySQL_lock_release_join {σ : Type} (exec : σ → Stmt → σ) (re : Option GoError)
    (f : σ → Outcome σ (Option GoError)) (s : σ) :
    (∀ s2 ferr, f (exec s (.getLock "flit")) = .ret s2 ferr →
      GuardMySQL exec none re f s = .ret (exec s2 (.releaseLock "flit")) (errorsJoin ferr re))
    ∧ (∀ s2 e, f (exec s (.getLock "flit")) = .panicked s2 e →
      GuardMySQL exec none re f s = .panicked (exec s2 (.releaseLock "flit")) e)
    ∧ (∀ e, GuardMySQL exec (some e) re f s = .ret (exec s (.getLock "flit")) (some e))
    ∧ (∀ a b, errorsJoin (some a) (some b) = some (.joined a b)
        ∧ errorsJoin (some a) none = some a ∧ errorsJoin none (some b) = some b) := by
  refine ⟨?_, ?_, ?_, ?_⟩
  · intro s2 ferr h
    simp [GuardMySQL, h]
  · intro s2 e h
    simp [GuardMySQL, h]
  · intro e
    rfl
  · intro a b
    exact ⟨rfl, rfl, rfl⟩

/-- Witness for claim C6 over a counter state: the lock statement reaches
the connection before the critical section, the release afterwards, and a
failing critical section joined with a failing release keeps both
errors. -/
theorem guardMySQL_lock_release_join_witness :
    GuardMySQL (fun (n : Nat) (_ : Stmt) => n + 1) none (some (.base "release failed"))
      (fun n => .ret (n * 10) (some (.base "body failed"))) 0
    = .ret 11 (some (.joined (.base "body failed") (.base "release failed"))) :=
  (guardMySQL_lock_release_join (fun (n : Nat) (_ : Stmt) => n + 1)
    (some (.base "release failed"))
    (fun n => .ret (n * 10) (some (.base "body failed"))) 0).1 10
    (some (.base "body failed")) rfl

/-- Claim C1 (the code, evaluated at the failing input): when the SELECT
on the flits table fails, `getCompletedMigrations` calls panic with that
error, so `Migrate` terminates abnormally instead of returning a state
error to the caller — after the create-table and select statements were
sent and while the deferred connection close runs. -/
theorem migrate_query_failure_panics :
    Migrate envC1 .mutexGuard id dbEmpty
      = .panicked ⟨[.createFlits, .selectSums], true, []⟩ (.base "query failed") := by
  rfl

/-- Claim C3: on a fully successful run, the units `Migrate` applies and
the names it returns are exactly the pending units in ascending
lexicographic case-sensitive byte order of their names — independent of
the discovery or map order `reorder` — and the statement trace applies
them in that same order. -/
theorem migrate_applies_in_name_order (env : Env) (db : DBState)
    (reorder : List migration → List migration) (l : List migration)
    (hl : loadMigrations env.fs = .ok l) (hc : env.connErr = none)
    (hok : noFailures env.benv) (hre : List.Perm (reorder l) l) :
    Migrate env .mutexGuard reorder db =
      .ret (List.foldl applyStep (setupS ⟨db, []⟩) (pendingFor l db.flits)).db
        ((pendingFor l db.flits).map migration.Name, none)
    ∧ List.Pairwise strLe ((pendingFor l db.flits).map migration.Name)
    ∧ (List.foldl applyStep (setupS ⟨db, []⟩) (pendingFor l db.flits)).db.stmts
        = db.stmts ++ [.createFlits, .selectSums] ++ applyTrace (pendingFor l db.flits) := by
  refine ⟨migrate_healthy_run env db reorder l hl hc hok hre, ?_, ?_⟩
  · exact List.Pairwise.map migration.Name (fun a b hab => hab)
      (sortPending_sorted (l.filter (fun m => !(db.flits.contains m.Sum))))
  · have hst := (foldl_applyStep (pendingFor l db.flits) (setupS ⟨db, []⟩)).2.2.1
    rw [hst]
    simp [setupS, execS]

/-- Witness for claim C3: two files whose numeric and lexicographic orders
differ are applied in lexicographic order. -/
theorem migrate_applies_in_name_order_witness :
    loadMigrations fsC3 = .ok lC3
    ∧ Migrate envC3 .mutexGuard id dbEmpty =
        .ret (List.foldl applyStep (setupS ⟨dbEmpty, []⟩) (pendingFor lC3 dbEmpty.flits)).db
          ((pendingFor lC3 dbEmpty.flits).map migration.Name, none)
    ∧ (pendingFor lC3 dbEmpty.flits).map migration.Name = ["002-first.sql", "01-second.sql"] := by
  refine ⟨rfl, ?_, ?_⟩
  · exact (migrate_applies_in_name_order envC3 dbEmpty id lC3 rfl rfl
      ⟨rfl, rfl, rfl, fun _ => rfl, fun _ => rfl⟩ (List.Perm.refl _)).1
  · rfl

/-- Claim C4: the pending set is recomputed on every call as the loaded
units minus the recorded sums, so after one fully successful run a second
run — under any map iteration order — applies nothing: it returns an empty
applied sequence with no error, and only re-sends the idempotent create
and the select. -/
theorem migrate_idempotent (env : Env) (db : DBState)
    (r1 r2 : List migration → List migration) (l : List migration)
    (hl : loadMigrations env.fs = .ok l) (hc : env.connErr = none)
    (hok : noFailures env.benv)
    (h1 : List.Perm (r1 l) l) (h2 : List.Perm (r2 l) l) :
    Migrate env .mutexGuard r1 db =
      .ret (List.foldl applyStep (setupS ⟨db, []⟩) (pendingFor l db.flits)).db
        ((pendingFor l db.flits).map migration.Name, none)
    ∧ pendingFor l (List.foldl applyStep (setupS ⟨db, []⟩) (pendingFor l db.flits)).db.flits = []
    ∧ Migrate env .mutexGuard r2
        (List.foldl applyStep (setupS ⟨db, []⟩) (pendingFor l db.flits)).db =
      .ret (setupS ⟨(List.foldl applyStep (setupS ⟨db, []⟩) (pendingFor l db.flits)).db, []⟩).db
        ([], none) := by
  have hflits :
      (List.foldl applyStep (setupS ⟨db, []⟩) (pendingFor l db.flits)).db.flits
        = db.flits ++ (pendingFor l db.flits).map migration.Sum := by
    have h := (foldl_applyStep (pendingFor l db.flits) (setupS ⟨db, []⟩)).2.1
    rw [h]
    simp [setupS, execS]
  have hpend :
      pendingFor l (List.foldl applyStep (setupS ⟨db, []⟩) (pendingFor l db.flits)).db.flits
        = [] := by
    have hfil :
        l.filter (fun m =>
          !((List.foldl applyStep (setupS ⟨db, []⟩) (pendingFor l db.flits)).db.flits.contains m.Sum))
          = [] := by
      rw [List.filter_eq_nil_iff]
      intro m hm
      have hmem :
          m.Sum ∈ (List.foldl applyStep (setupS ⟨db, []⟩) (pendingFor l db.flits)).db.flits := by
        rw [hflits]
        by_cases hmem0 : m.Sum ∈ db.flits
        · exact List.mem_append.mpr (Or.inl hmem0)
        · refine List.mem_append.mpr (Or.inr ?_)
          have hmf : m ∈ l.filter (fun m => !(db.flits.contains m.Sum)) := by
            rw [List.mem_filter]
            refine ⟨hm, ?_⟩
            simp only [Bool.not_eq_true']
            exact Bool.eq_false_iff.mpr (fun hcont => hmem0 ((contains_iff _ _).mp hcont))
          have hmemp : m ∈ pendingFor l db.flits :=
            ((sortPending_perm (l.filter (fun m => !(db.flits.contains m.Sum)))).mem_iff).mpr hmf
          exact List.mem_map.mpr ⟨m, hmemp, rfl⟩
      simp
      exact hmem
    show sortPending (l.filter (fun m =>
      !((List.foldl applyStep (setupS ⟨db, []⟩) (pendingFor l db.flits)).db.flits.contains m.Sum)))
        = []
    rw [hfil]
    rfl
  refine ⟨migrate_healthy_run env db r1 l hl hc hok h1, hpend, ?_⟩
  have hsecond := migrate_healthy_run env
    (List.foldl applyStep (setupS ⟨db, []⟩) (pendingFor l db.flits)).db r2 l hl hc hok h2
  rw [hpend] at hsecond
  simpa using hsecond

/-- Witness for claim C4: a two-file environment in which the second call
returns the empty sequence without error. -/
theorem migrate_idempotent_witness :
    loadMigrations fsC4 = .ok lC4
    ∧ Migrate envC4 .mutexGuard id
        (List.foldl applyStep (setupS ⟨dbEmpty, []⟩) (pendingFor lC4 dbEmpty.flits)).db =
      .ret (setupS ⟨(List.foldl applyStep (setupS ⟨dbEmpty, []⟩)
          (pendingFor lC4 dbEmpty.flits)).db, []⟩).db ([], none) :=
  ⟨rfl,
   (migrate_idempotent envC4 dbEmpty id id lC4 rfl rfl
     ⟨rfl, rfl, rfl, fun _ => rfl, fun _ => rfl⟩ (List.Perm.refl _) (List.Perm.refl _)).2.2⟩

/-- Claim C2: when the body execution or the record write of some pending
unit fails, `Migrate` applies and records exactly the prefix of units
before it, returns exactly their names, stops at the failing unit — whose
body or record statement is the last thing sent — and returns an error
wrapping the failing unit name around the underlying cause. -/
theorem migrate_fail_stop (env : Env) (db : DBState)
    (reorder : List migration → List migration) (l good rest : List migration)
    (bad : migration)
    (hl : loadMigrations env.fs = .ok l) (hc : env.connErr = none)
    (hct : env.benv.createTableErr = none) (hq : env.benv.queryErr = none)
    (hrw : env.benv.rowsErr = none)
    (hre : List.Perm (reorder l) l)
    (hsplit : pendingFor l db.flits = good ++ bad :: rest)
    (hgood : ∀ m ∈ good, env.benv.execErr m.Name = none ∧ env.benv.insertErr m.Sum = none)
    (hbad : ¬(env.benv.execErr bad.Name = none ∧ env.benv.insertErr bad.Sum = none)) :
    (List.foldl applyStep (setupS ⟨db, []⟩) good).applied = good.map migration.Name
    ∧ (List.foldl applyStep (setupS ⟨db, []⟩) good).db.flits
        = db.flits ++ good.map migration.Sum
    ∧ ((∃ e, env.benv.execErr bad.Name = some e ∧
        Migrate env .mutexGuard reorder db =
          .ret (execS (List.foldl applyStep (setupS ⟨db, []⟩) good) (.execBody bad.SQL)).db
            (good.map migration.Name, some (.wrap ("apply " ++ bad.Name) e)))
      ∨ (env.benv.execErr bad.Name = none ∧ ∃ e, env.benv.insertErr bad.Sum = some e ∧
        Migrate env .mutexGuard reorder db =
          .ret (execS (execS (List.foldl applyStep (setupS ⟨db, []⟩) good)
              (.execBody bad.SQL)) (.insertSum bad.Sum)).db
            (good.map migration.Name, some (.wrap ("record " ++ bad.Name) e)))) := by
  have hn := loadMigrations_names_nodup hl
  have hcanon :
      sortPending ((reorder l).filter (fun m => !(db.flits.contains m.Sum)))
        = pendingFor l db.flits :=
    sortPending_canonical _ hre hn
  have happ := (foldl_applyStep good (setupS ⟨db, []⟩)).1
  have happ0 : (setupS ⟨db, []⟩).applied = [] := rfl
  rw [happ0] at happ
  rw [List.nil_append] at happ
  have hflits := (foldl_applyStep good (setupS ⟨db, []⟩)).2.1
  have hflits0 : (setupS ⟨db, []⟩).db.flits = db.flits := rfl
  rw [hflits0] at hflits
  refine ⟨happ, hflits, ?_⟩
  have hloop := applyLoop_fail env.benv bad hbad good rest (setupS ⟨db, []⟩) hgood
  have hbody :
      migrateBody env.benv reorder l ⟨db, []⟩ =
        applyLoop env.benv (good ++ bad :: rest) (setupS ⟨db, []⟩) := by
    rw [migrateBody_run env.benv hct hq hrw reorder l ⟨db, []⟩]
    have hfl : (⟨db, []⟩ : MigState).db.flits = db.flits := rfl
    rw [hfl, hcanon, hsplit]
  rcases hloop with ⟨e, he, hres⟩ | ⟨hnone, e, he, hres⟩
  · left
    refine ⟨e, he, ?_⟩
    simp only [Migrate, hl, hc, runGuard, hbody, hres]
    simp [execS, happ]
  · right
    refine ⟨hnone, e, he, ?_⟩
    simp only [Migrate, hl, hc, runGuard, hbody, hres]
    simp [execS, happ]

/-- Witness for claim C2: five pending units whose third fails to execute;
the first two are applied and recorded, and the result is the two names
plus the wrapped apply error. -/
theorem migrate_fail_stop_witness :
    pendingFor lC2 dbEmpty.flits = goodC2 ++ badC2 :: restC2
    ∧ ((List.foldl applyStep (setupS ⟨dbEmpty, []⟩) goodC2).applied = goodC2.map migration.Name
    ∧ (List.foldl applyStep (setupS ⟨dbEmpty, []⟩) goodC2).db.flits
        = dbEmpty.flits ++ goodC2.map migration.Sum
    ∧ ((∃ e, envC2.benv.execErr badC2.Name = some e ∧
        Migrate envC2 .mutexGuard id dbEmpty =
          .ret (execS (List.foldl applyStep (setupS ⟨dbEmpty, []⟩) goodC2)
              (.execBody badC2.SQL)).db
            (goodC2.map migration.Name, some (.wrap ("apply " ++ badC2.Name) e)))
      ∨ (envC2.benv.execErr badC2.Name = none ∧ ∃ e, envC2.benv.insertErr badC2.Sum = some e ∧
        Migrate envC2 .mutexGuard id dbEmpty =
          .ret (execS (execS (List.foldl applyStep (setupS ⟨dbEmpty, []⟩) goodC2)
              (.execBody badC2.SQL)) (.insertSum badC2.Sum)).db
            (goodC2.map migration.Name, some (.wrap ("record " ++ badC2.Name) e))))) := by
  refine ⟨rfl, ?_⟩
  refine migrate_fail_stop envC2 dbEmpty id lC2 goodC2 restC2 badC2 rfl rfl rfl rfl rfl
    (List.Perm.refl _) rfl ?_ ?_
  · intro m hm
    rcases hm with _ | ⟨_, hm⟩
    · exact ⟨rfl, rfl⟩
    · rcases hm with _ | ⟨_, hm⟩
      · exact ⟨rfl, rfl⟩
      · exact absurd hm (List.not_mem_nil m)
  · intro h
    exact absurd h.1 (by decide)

/-- Claim C5: the fingerprint of every loaded migration is the lowercase
hexadecimal SHA-256 digest of its name alone; the rendering is 64
lowercase hexadecimal characters for every name; and two file systems
serving the same names with different contents load migrations with
identical name/fingerprint projections, so editing a body without renaming
never changes identity. -/
theorem fingerprint_is_sha256_of_name :
    (∀ (fs : FSModel) (l : List migration), loadMigrations fs = .ok l →
      ∀ m ∈ l, m.Sum = sha256hex m.Name)
    ∧ (∀ s : String, (sha256hex s).data.length = 64
        ∧ ∀ c ∈ (sha256hex s).data, c ∈ ("0123456789abcdef").data)
    ∧ (∀ (fs fs2 : FSModel) (l l2 : List migration), fs.globNames = fs2.globNames →
        loadMigrations fs = .ok l → loadMigrations fs2 = .ok l2 →
        l.map (fun m => (m.Name, m.Sum)) = l2.map (fun m => (m.Name, m.Sum))) := by
  refine ⟨?_, ?_, ?_⟩
  · intro fs l h
    exact (loadMigrations_sums h).1
  · intro s
    constructor
    · show (hexChars (sha256Bytes (utf8Bytes s.data))).length = 64
      rw [hexChars_length, sha256Bytes_length]
    · intro c hc
      rcases mem_hexChars _ c hc with ⟨b, hb, hcb⟩
      have hblt : b < 256 := mem_sha256Bytes_lt _ b hb
      rcases hcb with rfl | rfl
      · exact hexDigit_mem_digits (b / 16) ((Nat.div_lt_iff_lt_mul (by decide)).mpr hblt)
      · exact hexDigit_mem_digits (b % 16) (Nat.mod_lt _ (by decide))
  · intro fs fs2 l l2 hg h h2
    unfold loadMigrations at h h2
    cases hgn : fs.globNames with
    | error e =>
      rw [hgn] at h
      exact absurd h (by simp)
    | ok names =>
      rw [hgn] at h
      rw [hg] at hgn
      rw [hgn] at h2
      exact loadGo_proj fs fs2 names [] [] l l2 rfl h h2

/-- Witness for claim C5: the file abc fingerprints to the SHA-256 test
vector digest of abc regardless of its body, and the two bodies load to
identical name/fingerprint projections. -/
theorem fingerprint_is_sha256_of_name_witness :
    loadMigrations fsC5 = .ok lC5
    ∧ loadMigrations fsC5b = .ok lC5b
    ∧ (∀ m ∈ lC5, m.Sum = sha256hex m.Name)
    ∧ (sha256hex "abc").data.length = 64
    ∧ lC5.map (fun m => (m.Name, m.Sum)) = lC5b.map (fun m => (m.Name, m.Sum)) := by
  refine ⟨rfl, rfl, ?_, ?_, ?_⟩
  · exact fingerprint_is_sha256_of_name.1 fsC5 lC5 rfl
  · exact (fingerprint_is_sha256_of_name.2.1 "abc").1
  · exact fingerprint_is_sha256_of_name.2.2 fsC5 fsC5b lC5 lC5b rfl rfl rfl

/-- Every decimal digit character rendered by the timestamp format is one
of the ten digit characters. -/
theorem digitChar_mem (n : Nat) : digitChar n ∈ ("0123456789").data := by
  have h : n % 10 < 10 := Nat.mod_lt _ (by decide)
  unfold digitChar
  revert h
  generalize n % 10 = m
  intro h
  exact (by decide : ∀ m < 10, Char.ofNat (48 + m) ∈ ("0123456789").data) m h

/-- Claim C9: the CLI new subcommand prints the usage line on stderr and
exits 2 on argument misuse, exits 1 with the error on a stat failure,
and on a correct invocation over an existing directory writes one empty
file named by the 14-digit YYYYMMDDHHMMSS timestamp followed by
-new-migration.sql and prints the created path, exiting 0. -/
theorem cli_new_behavior :
    (∀ env : CLIEnv, (env.args.length ≠ 3 ∨ env.args.getD 1 "" ≠ "new") →
      cliMain env = ⟨2, [usageLine], [], []⟩)
    ∧ (∀ (env : CLIEnv) (prog dir : String) (e : GoError),
        env.args = [prog, "new", dir] → env.stat dir = .error e →
        cliMain env = ⟨1, ["flit: " ++ errMsg e], [], []⟩)
    ∧ (∀ (env : CLIEnv) (prog dir : String),
        env.args = [prog, "new", dir] → env.stat dir = .ok true →
        env.writeErr (joinPath dir (newFileName env.now)) = none →
        cliMain env = ⟨0, [], [joinPath dir (newFileName env.now)],
          [(joinPath dir (newFileName env.now), "")]⟩)
    ∧ (∀ t : GoTime, (formatStamp t).data.length = 14
        ∧ ∀ c ∈ (formatStamp t).data, c ∈ ("0123456789").data) := by
  refine ⟨?_, ?_, ?_, ?_⟩
  · intro env h
    rw [cliMain, if_pos h]
  · intro env prog dir e ha hs
    have hcond : ¬(env.args.length ≠ 3 ∨ env.args.getD 1 "" ≠ "new") := by
      simp [ha]
    rw [cliMain, if_neg hcond]
    simp only [ha, List.getD]
    simp [hs]
  · intro env prog dir ha hs hw
    have hcond : ¬(env.args.length ≠ 3 ∨ env.args.getD 1 "" ≠ "new") := by
      simp [ha]
    rw [cliMain, if_neg hcond]
    simp [ha, hs, hw]
  · intro t
    constructor
    · simp [formatStamp, pad4, pad2]
    · intro c hc
      have : (formatStamp t).data =
          pad4 t.year ++ pad2 t.month ++ pad2 t.day ++ pad2 t.hour ++ pad2 t.minute
            ++ pad2 t.second := rfl
      rw [this] at hc
      simp only [pad4, pad2, List.mem_append, List.mem_cons, List.not_mem_nil,
        or_false] at hc
      obtain ⟨k, rfl⟩ : ∃ k, c = digitChar k := by
        rcases hc with (((((h | h | h | h) | h | h) | h | h) | h | h) | h | h) | h | h <;>
          exact ⟨_, h⟩
      exact digitChar_mem k

/-- Witness for claim C9: a misuse invocation exits 2 with the usage line,
and a correct invocation creates the timestamped empty file and prints its
path. -/
theorem cli_new_behavior_witness :
    cliMain cliEnvA = ⟨2, [usageLine], [], []⟩
    ∧ cliMain cliEnvB = ⟨0, [], ["migrations/20261011120000-new-migration.sql"],
        [("migrations/20261011120000-new-migration.sql", "")]⟩ := by
  constructor
  · exact cli_new_behavior.1 cliEnvA (Or.inl (by decide))
  · have h := cli_new_behavior.2.2.1 cliEnvB "flit" "migrations" rfl rfl rfl
    exact h.trans (by decide)
